import Mathlib

/-!
Verification development for the OECD agricultural-statistics dashboard
(`asm_group/OECD_dashboard`).  The definitions below are shallow embeddings
of the table-loading, unit-normalization and filter/aggregate code of the
repository; numeric cells are modelled as exact rationals, nullable cells as
`Option`, and pandas frames as Lean lists.
-/

namespace OECD

/-! ## Unit normalizer

Embeds the multiplier lookup of `sections/area.py` lines 15-16 and
`water.py` lines 40-49:

    multiplier_map = {'Millions': 1_000_000, 'Thousands': 1_000,
                      'Units': 1, 'Billions': 1_000_000_000}
    value * unit_multiplier.map(multiplier_map).fillna(1)
-/

def multiplier_map : List (String × ℚ) :=
  [("Millions", 1000000), ("Thousands", 1000), ("Units", 1), ("Billions", 1000000000)]

/-- `.map(multiplier_map).fillna(1)` applied to one multiplier label:
a missing label or a label outside the dictionary yields factor 1. -/
def multiplierFactor : Option String → ℚ
  | none => 1
  | some s => (multiplier_map.lookup s).getD 1

/-- Element-wise normalization of one value: `value * factor(label)`. -/
def normalize (v : ℚ) (label : Option String) : ℚ :=
  v * multiplierFactor label

/-! ## Rows of the OECD tables

A row carries the columns the dashboard sections read.  `Value` is nullable
(pandas `NaN`), as are the category columns that not every table fills. -/

structure Row where
  referenceArea : String
  year : ℤ
  measure : String
  unitOfMeasure : Option String
  unitMultiplier : Option String
  value : Option ℚ
  nutrients : Option String
deriving DecidableEq

/-- pandas `Series.sum()` over a nullable column: `NaN`s are skipped, the
empty (or all-`NaN`) sum is `0`. -/
def sumV (l : List Row) : ℚ :=
  (l.filterMap (·.value)).sum

/-- pandas `Series.mean()` over a nullable column: `NaN`s are skipped, the
empty (or all-`NaN`) mean is `NaN` (modelled as `none`). -/
def meanV (l : List Row) : Option ℚ :=
  let vs := l.filterMap (·.value)
  if vs.isEmpty then none else some (vs.sum / vs.length)

end OECD

namespace OECD

/-- C1 helper: the four mapped labels. -/
def mappedLabels : List String := ["Millions", "Thousands", "Units", "Billions"]

theorem multiplierFactor_unmapped (s : String) (h : s ∉ mappedLabels) :
    multiplierFactor (some s) = 1 := by
  simp only [mappedLabels, List.mem_cons, List.not_mem_nil, or_false, not_or] at h
  obtain ⟨h1, h2, h3, h4⟩ := h
  have e1 : (s == "Millions") = false := beq_eq_false_iff_ne.mpr h1
  have e2 : (s == "Thousands") = false := beq_eq_false_iff_ne.mpr h2
  have e3 : (s == "Units") = false := beq_eq_false_iff_ne.mpr h3
  have e4 : (s == "Billions") = false := beq_eq_false_iff_ne.mpr h4
  simp [multiplierFactor, multiplier_map, List.lookup, e1, e2, e3, e4]

end OECD

/-- C1: the unit normalizer scales by 1e6 / 1e3 / 1 / 1e9 for the labels
"Millions" / "Thousands" / "Units" / "Billions", returns `v` unchanged for
every unmapped or missing label, and in particular sends `(5, "Thousands")`
to `5000` and `(5, "unknown")` to `5`. -/
theorem C1_normalize_spec (v : ℚ) :
    OECD.normalize v (some "Millions") = v * 1000000 ∧
    OECD.normalize v (some "Thousands") = v * 1000 ∧
    OECD.normalize v (some "Units") = v * 1 ∧
    OECD.normalize v (some "Billions") = v * 1000000000 ∧
    (∀ s : String, s ∉ OECD.mappedLabels → OECD.normalize v (some s) = v) ∧
    OECD.normalize v none = v ∧
    OECD.normalize 5 (some "Thousands") = 5000 ∧
    OECD.normalize 5 (some "unknown") = 5 := by
  refine ⟨rfl, rfl, rfl, rfl, ?_, by simp [OECD.normalize, OECD.multiplierFactor], ?_, ?_⟩
  · intro s hs
    rw [OECD.normalize, OECD.multiplierFactor_unmapped s hs, mul_one]
  · have h : OECD.normalize 5 (some "Thousands") = 5 * 1000 := rfl
    rw [h]; norm_num
  · rw [OECD.normalize, OECD.multiplierFactor_unmapped "unknown" (by decide), mul_one]

/-- Witness for C1 at concrete inputs. -/
theorem C1_normalize_spec_witness :
    OECD.normalize 7 (some "Billions") = 7 * 1000000000 ∧
    OECD.normalize 7 (some "nonsense") = 7 := by
  obtain ⟨_, _, _, h4, h5, _⟩ := C1_normalize_spec 7
  exact ⟨h4, h5 "nonsense" (by decide)⟩

namespace OECD

/-! ## Table loader (`utils/db.py`)

`load_table` issues the single query `SELECT * FROM <name>` against the
backing MySQL store and returns the resulting frame.  There is no retry
loop and no exception handler: a store failure propagates directly to the
caller.  The store itself is external; its failure modes are the driver's
"unknown relation" and "unreachable host" errors. -/

inductive DBError
  | notFound
  | connectivity
deriving DecidableEq

/-- A backing store: answers a table name with a frame or a failure. -/
def Store : Type := String → Except DBError (List Row)

/-- Modelled from the spec: the external MySQL backing store (out of scope
of the repository).  When unreachable every query fails with
`ConnectivityError`; otherwise an unknown relation fails with
`NotFoundError` and a known one returns its rows. -/
def mysqlStore (reachable : Bool) (tables : List (String × List Row)) : Store :=
  fun name =>
    if reachable then
      match tables.lookup name with
      | some t => .ok t
      | none => .error .notFound
    else
      .error .connectivity

/-- `load_table` (db.py lines 18-26) without its cache decorator: one query
to the store, whose outcome — success or either failure — is returned
as-is.  The second component counts the backing-store queries issued by the
call: the body runs `pd.read_sql` exactly once on every path. -/
def load_table (store : Store) (name : String) : Except DBError (List Row) × ℕ :=
  (store name, 1)

/-- Modelled from the spec: the framework's `st.cache_data` memoization
wrapped around `load_table`.  The cache is keyed by the table name; a hit
returns the cached frame with no store query; a miss queries once and, on
success, records the result.  Returns (outcome, new cache, queries issued). -/
def cached_load (cache : List (String × List Row)) (store : Store) (name : String) :
    Except DBError (List Row) × List (String × List Row) × ℕ :=
  match cache.lookup name with
  | some t => (.ok t, cache, 0)
  | none =>
    match store name with
    | .ok t => (.ok t, (name, t) :: cache, 1)
    | .error e => (.error e, cache, 1)

end OECD

/-- C4: `load(name)` fails with `NotFoundError` when `name` is not a known
relation of the (reachable) store, fails with `ConnectivityError` whenever
the store is unreachable — both failures surface directly to the caller —
and on every path exactly one backing-store query is issued: no retry. -/
theorem C4_load_failure_modes (reachable : Bool)
    (tables : List (String × List OECD.Row)) (name : String) :
    (reachable = true → tables.lookup name = none →
      (OECD.load_table (OECD.mysqlStore reachable tables) name).1 =
        .error OECD.DBError.notFound) ∧
    (reachable = false →
      (OECD.load_table (OECD.mysqlStore reachable tables) name).1 =
        .error OECD.DBError.connectivity) ∧
    (OECD.load_table (OECD.mysqlStore reachable tables) name).2 = 1 := by
  refine ⟨?_, ?_, rfl⟩
  · intro hr hn
    simp [OECD.load_table, OECD.mysqlStore, hr, hn]
  · intro hr
    simp [OECD.load_table, OECD.mysqlStore, hr]

/-- Witness for C4: an unreachable store and a reachable store missing the
requested relation, each answered by a single failing query. -/
theorem C4_load_failure_modes_witness :
    (OECD.load_table (OECD.mysqlStore true []) "agri").1 =
      .error OECD.DBError.notFound ∧
    (OECD.load_table (OECD.mysqlStore false []) "agri").1 =
      .error OECD.DBError.connectivity ∧
    (OECD.load_table (OECD.mysqlStore false []) "agri").2 = 1 := by
  obtain ⟨h1, -, -⟩ := C4_load_failure_modes true [] "agri"
  obtain ⟨-, h2, h3⟩ := C4_load_failure_modes false [] "agri"
  exact ⟨h1 rfl rfl, h2 rfl, h3⟩

/-- C5: for a known table name, loading is idempotent and cached: starting
from a cache without `name`, a first successful load returns the store's
frame; a second call with the same name returns the identical frame, issues
zero backing-store queries, and leaves the cache unchanged. -/
theorem C5_load_idempotent_cached (store : OECD.Store)
    (cache : List (String × List OECD.Row)) (name : String) (t : List OECD.Row)
    (hmiss : cache.lookup name = none) (hok : store name = .ok t) :
    (OECD.cached_load cache store name).1 = .ok t ∧
    (OECD.cached_load ((OECD.cached_load cache store name).2.1) store name).1 = .ok t ∧
    (OECD.cached_load ((OECD.cached_load cache store name).2.1) store name).2.2 = 0 ∧
    (OECD.cached_load ((OECD.cached_load cache store name).2.1) store name).2.1 =
      (OECD.cached_load cache store name).2.1 := by
  have h1 : OECD.cached_load cache store name = (.ok t, (name, t) :: cache, 1) := by
    simp [OECD.cached_load, hmiss, hok]
  have hhit : ((name, t) :: cache).lookup name = some t := by
    simp [List.lookup]
  refine ⟨by rw [h1], ?_, ?_, ?_⟩ <;> rw [h1] <;> simp [OECD.cached_load, hhit]

/-- Witness for C5 on a concrete store with one known table. -/
theorem C5_load_idempotent_cached_witness :
    (OECD.cached_load [] (OECD.mysqlStore true [("agri", [])]) "agri").1 = .ok [] ∧
    (OECD.cached_load
      ((OECD.cached_load [] (OECD.mysqlStore true [("agri", [])]) "agri").2.1)
      (OECD.mysqlStore true [("agri", [])]) "agri").2.2 = 0 := by
  obtain ⟨h1, -, h3, -⟩ :=
    C5_load_idempotent_cached (OECD.mysqlStore true [("agri", [])]) [] "agri" []
      rfl rfl
  exact ⟨h1, h3⟩

namespace OECD

/-! ## Filter/aggregate pipeline

Each section filters the loaded frame with boolean predicates, groups by a
key column and reduces `Value` (or the normalized `Value_norm`) with sum or
mean.  `groupBySum` embeds pandas `groupby(key)[col].sum()` with its default
`sort=True`: group keys appear in ascending order. -/

/-- Conjunction of row predicates, as in chained boolean masks. -/
def filterTable (ps : List (Row → Bool)) (t : List Row) : List Row :=
  t.filter (fun r => ps.all (fun p => p r))

/-- The derived `Value_norm` column of `area.py` line 16 / `water.py` 46-49:
`Value * multiplier_map.fillna(1)`; a `NaN` value stays `NaN`. -/
def valueNorm (r : Row) : Option ℚ :=
  r.value.map (fun q => q * multiplierFactor r.unitMultiplier)

/-- Ascending, deduplicated group keys (pandas `groupby` default order). -/
def groupKeys (key : Row → String) (t : List Row) : List String :=
  List.insertionSort (fun a b : String => a ≤ b) (t.map key).dedup

/-- `groupby(key)[val].sum().reset_index()`: one `(key, sum)` pair per
distinct key, keys ascending, `NaN` contributions skipped. -/
def groupBySum (key : Row → String) (val : Row → Option ℚ) (t : List Row) :
    List (String × ℚ) :=
  (groupKeys key t).map fun k =>
    (k, ((t.filter (fun r => key r == k)).filterMap val).sum)

/-- `sort_values(col, ascending=False)` on the aggregated pairs. -/
def sortDescSnd (l : List (String × ℚ)) : List (String × ℚ) :=
  List.insertionSort (fun a b : String × ℚ => b.2 ≤ a.2) l

/-- The pie-chart aggregation of `area.py` lines 28-34:
`area[Measure.isin(land_types)].groupby('Measure')['Value_norm'].sum()
.reset_index().sort_values('Value_norm', ascending=False)`. -/
def globalLand (landTypes : List String) (area : List Row) : List (String × ℚ) :=
  sortDescSnd (groupBySum (·.measure) valueNorm
    (filterTable [fun r => r.measure ∈ landTypes] area))

/-! ## The water section's guard (`sections/water.py` lines 20-35) -/

def waterMeasures : List String :=
  ["Agriculture freshwater abstraction", "Total freshwater abstraction",
   "Irrigable area", "Irrigation area"]

/-- Substring test: `pat` occurs contiguously inside `s`. -/
def listContains (pat : List Char) : List Char → Bool
  | [] => pat.isPrefixOf []
  | c :: rest => pat.isPrefixOf (c :: rest) || listContains pat rest

/-- `.str.contains("Cubic metres|Hectares", na=False)` on `Unit of measure`. -/
def unitIsVolumeOrArea : Option String → Bool
  | none => false
  | some s => listContains "Cubic metres".toList s.toList ||
      listContains "Hectares".toList s.toList

/-- `df_water`: measure among the four water measures, volume/area unit,
year at least 2012. -/
def dfWater (agri : List Row) : List Row :=
  filterTable
    [fun r => r.measure ∈ waterMeasures,
     fun r => unitIsVolumeOrArea r.unitOfMeasure,
     fun r => 2012 ≤ r.year] agri

/-- What a section render produces: an informational warning, or charts
over the filtered frame. -/
inductive RenderResult
  | warning (msg : String)
  | rendered (t : List Row)
deriving DecidableEq

/-- The empty-result guard of `section_water`:
`if df_water.empty: st.warning("No water-related data found."); return`. -/
def sectionWaterOutcome (agri : List Row) : RenderResult :=
  let t := dfWater agri
  if t.isEmpty then .warning "No water-related data found." else .rendered t

end OECD

/-- C3: a predicate set matching no rows makes the filter return the empty
table and every grouped aggregation over it the empty table — never an
error (the pipeline functions are total) — and the water section's caller
turns the empty frame into a warning message rather than a crash. -/
theorem C3_empty_filter_is_normal (t : List OECD.Row) (ps : List (OECD.Row → Bool))
    (key : OECD.Row → String) (val : OECD.Row → Option ℚ) (agri : List OECD.Row)
    (hnone : ∀ r ∈ t, ∃ p ∈ ps, p r = false)
    (hempty : OECD.dfWater agri = []) :
    OECD.filterTable ps t = [] ∧
    OECD.groupBySum key val (OECD.filterTable ps t) = [] ∧
    OECD.sectionWaterOutcome agri =
      OECD.RenderResult.warning "No water-related data found." := by
  have hf : OECD.filterTable ps t = [] := by
    rw [OECD.filterTable, List.filter_eq_nil_iff]
    intro r hr
    obtain ⟨p, hp, hfalse⟩ := hnone r hr
    simp only [List.all_eq_true, Bool.not_eq_true]
    intro hall
    have := hall p hp
    rw [hfalse] at this
    exact Bool.false_ne_true this
  refine ⟨hf, ?_, ?_⟩
  · rw [hf]; rfl
  · rw [OECD.sectionWaterOutcome, hempty]; rfl

/-- Witness for C3: a one-row table rejected by an always-false predicate,
and an `agri` table whose single row fails the water filters. -/
theorem C3_empty_filter_is_normal_witness :
    OECD.filterTable [fun _ => false]
      [{ referenceArea := "France", year := 2015, measure := "Arable land",
         unitOfMeasure := some "Hectares", unitMultiplier := none,
         value := some 3, nutrients := none }] = [] ∧
    OECD.sectionWaterOutcome
      [{ referenceArea := "France", year := 2015, measure := "Arable land",
         unitOfMeasure := some "Hectares", unitMultiplier := none,
         value := some 3, nutrients := none }] =
      OECD.RenderResult.warning "No water-related data found." := by
  obtain ⟨h1, -, h3⟩ :=
    C3_empty_filter_is_normal
      [{ referenceArea := "France", year := 2015, measure := "Arable land",
         unitOfMeasure := some "Hectares", unitMultiplier := none,
         value := some 3, nutrients := none }]
      [fun _ => false] (·.measure) OECD.valueNorm
      [{ referenceArea := "France", year := 2015, measure := "Arable land",
         unitOfMeasure := some "Hectares", unitMultiplier := none,
         value := some 3, nutrients := none }]
      (by intro r hr; exact ⟨fun _ => false, by simp, rfl⟩)
      (by decide)
  exact ⟨h1, h3⟩

/-- C9: the filter/aggregate pipeline is deterministic — two runs on the
same table snapshot with the same parameters produce identical outputs;
the pipeline is a pure function of its inputs. -/
theorem C9_pipeline_deterministic (landTypes₁ landTypes₂ : List String)
    (area₁ area₂ : List OECD.Row)
    (ht : area₁ = area₂) (hp : landTypes₁ = landTypes₂) :
    OECD.globalLand landTypes₁ area₁ = OECD.globalLand landTypes₂ area₂ := by
  rw [ht, hp]

/-- Witness for C9 on a concrete snapshot and parameter set. -/
theorem C9_pipeline_deterministic_witness :
    OECD.globalLand ["Arable land"]
      [{ referenceArea := "France", year := 2015, measure := "Arable land",
         unitOfMeasure := some "Hectares", unitMultiplier := some "Thousands",
         value := some 3, nutrients := none }] =
    OECD.globalLand ["Arable land"]
      [{ referenceArea := "France", year := 2015, measure := "Arable land",
         unitOfMeasure := some "Hectares", unitMultiplier := some "Thousands",
         value := some 3, nutrients := none }] :=
  C9_pipeline_deterministic _ _ _ _ rfl rfl

namespace OECD

/-! ## Top-k selection (`nlargest`)

`water.py` line 60 (`.mean().nlargest(10)`) and `energy.py` line 55
(`.nlargest(15, 'Value')`) use pandas `nlargest` with its default
`keep='first'`: the rows are ordered by descending value and, among equal
values, by original position — a stable descending sort followed by
`head(k)`.  An entry is modelled as (source position, ranking value). -/

/-- Descending comparison on the ranking value. -/
def byValueDesc (a b : ℕ × ℚ) : Prop := b.2 ≤ a.2

instance : DecidableRel byValueDesc :=
  fun a b => inferInstanceAs (Decidable (b.2 ≤ a.2))

instance : IsTotal (ℕ × ℚ) byValueDesc :=
  ⟨fun a b => le_total b.2 a.2⟩

instance : IsTrans (ℕ × ℚ) byValueDesc :=
  ⟨fun _ _ _ h1 h2 => le_trans h2 h1⟩

/-- pandas `nlargest(k)` with `keep='first'`: stable descending sort, then
the first `k` entries. -/
def nlargest (k : ℕ) (l : List (ℕ × ℚ)) : List (ℕ × ℚ) :=
  (List.insertionSort byValueDesc l).take k

/-- The order contract of `nlargest` output: values descending and, among
equal values, source positions increasing. -/
def rankedBefore (a b : ℕ × ℚ) : Prop :=
  b.2 ≤ a.2 ∧ (a.2 = b.2 → a.1 < b.1)

theorem pairwise_rankedBefore_orderedInsert (x : ℕ × ℚ) (l : List (ℕ × ℚ))
    (hpw : l.Pairwise rankedBefore) (hsort : l.Sorted byValueDesc)
    (hidx : ∀ b ∈ l, x.1 < b.1) :
    (l.orderedInsert byValueDesc x).Pairwise rankedBefore := by
  induction l with
  | nil => simp [List.orderedInsert, rankedBefore]
  | cons b t ih =>
    rw [List.orderedInsert]
    rw [List.sorted_cons] at hsort
    rw [List.pairwise_cons] at hpw
    by_cases hxb : byValueDesc x b
    · rw [if_pos hxb]
      refine List.Pairwise.cons ?_ (List.Pairwise.cons hpw.1 hpw.2)
      intro c hc
      rcases List.mem_cons.1 hc with rfl | hct
      · exact ⟨hxb, fun _ => hidx c (List.mem_cons_self c t)⟩
      · exact ⟨le_trans (hsort.1 c hct) hxb,
          fun _ => hidx c (List.mem_cons_of_mem b hct)⟩
    · rw [if_neg hxb]
      have hlt : x.2 < b.2 := lt_of_not_le hxb
      refine List.Pairwise.cons ?_
        (ih hpw.2 hsort.2 (fun c hc => hidx c (List.mem_cons_of_mem b hc)))
      intro c hc
      rcases (List.mem_orderedInsert byValueDesc).1 hc with rfl | hct
      · exact ⟨le_of_lt hlt, fun he => absurd he (ne_of_gt hlt)⟩
      · exact hpw.1 c hct

theorem pairwise_rankedBefore_insertionSort (l : List (ℕ × ℚ))
    (h : l.Pairwise (fun a b => a.1 < b.1)) :
    (List.insertionSort byValueDesc l).Pairwise rankedBefore := by
  induction l with
  | nil => simp [List.insertionSort]
  | cons x t ih =>
    rw [List.pairwise_cons] at h
    rw [List.insertionSort]
    refine pairwise_rankedBefore_orderedInsert x _ (ih h.2)
      (List.sorted_insertionSort byValueDesc t) ?_
    intro b hb
    exact h.1 b ((List.perm_insertionSort byValueDesc t).mem_iff.1 hb)

end OECD

/-- C2: top-k selection is a stable descending sort truncated to `k`: if
the source rows carry strictly increasing positions, then in the `nlargest`
output values are descending and, among tied values, the row from the
earlier source position comes first. -/
theorem C2_nlargest_stable (k : ℕ) (l : List (ℕ × ℚ))
    (h : l.Pairwise (fun a b => a.1 < b.1)) :
    (OECD.nlargest k l).Pairwise OECD.rankedBefore :=
  ((OECD.pairwise_rankedBefore_insertionSort l h).sublist
    (List.take_sublist k _))

/-- Witness for C2: three rows with a duplicated ranking value; the top-2
selection keeps the tied rows in source order. -/
theorem C2_nlargest_stable_witness :
    OECD.nlargest 3 [(0, 5), (1, 7), (2, 5)] = [(1, 7), (0, 5), (2, 5)] ∧
    (OECD.nlargest 3 [(0, 5), (1, 7), (2, 5)]).Pairwise OECD.rankedBefore := by
  constructor
  · decide
  · exact C2_nlargest_stable 3 [(0, 5), (1, 7), (2, 5)] (by decide)

namespace OECD

/-! ## In-place column assignment in the area renderer

`section_area` (area.py lines 12-19) binds `area = load_table("area")` and
then executes `area['Value_norm'] = area['Value'] * area['Unit
multiplier'].map(multiplier_map).fillna(1)` — an in-place column assignment
on the very frame object the loader returned.  A frame is modelled
column-oriented: an ordered list of (column name, cells). -/

inductive Cell
  | str (s : String)
  | num (q : ℚ)
  | null
deriving DecidableEq

/-- A pandas DataFrame: named columns in order. -/
abbrev Frame : Type := List (String × List Cell)

/-- `.map(multiplier_map).fillna(1)` on one multiplier cell. -/
def cellFactor : Cell → ℚ
  | .str s => multiplierFactor (some s)
  | _ => 1

/-- One cell of the derived column: `Value * factor`; a non-numeric value
cell propagates `NaN`. -/
def normCell : Cell → Cell → Cell
  | .num q, m => .num (q * cellFactor m)
  | _, _ => .null

/-- Column access by name (empty when the frame lacks the column). -/
def colValues (df : Frame) (name : String) : List Cell :=
  (List.lookup name df).getD []

/-- The derived `Value_norm` column of area.py line 16. -/
def valueNormColumn (df : Frame) : List Cell :=
  List.zipWith normCell (colValues df "Value") (colValues df "Unit multiplier")

/-- The state of the loaded frame after area.py line 16 has executed: the
assignment appends the derived column to the frame object in place. -/
def areaNormalizeStep (df : Frame) : Frame :=
  df ++ [("Value_norm", valueNormColumn df)]

end OECD

/-- Counterexample to C6 as stated: on a concrete loaded `area` frame the
renderer's normalization step mutates the frame object in place — after
the render the frame has an extra `Value_norm` column, so its columns are
not identical to the loaded ones. -/
theorem C6_counterexample :
    OECD.areaNormalizeStep
      [("Value", [OECD.Cell.num 5]), ("Unit multiplier", [OECD.Cell.str "Thousands"])] ≠
    [("Value", [OECD.Cell.num 5]), ("Unit multiplier", [OECD.Cell.str "Thousands"])] := by
  intro h
  have hl := congrArg List.length h
  simp [OECD.areaNormalizeStep] at hl

/-- C6 amended: the area renderer does mutate its loaded frame in place,
but the mutation is exactly the appending of the derived `Value_norm`
column: dropping the appended column recovers the loaded frame unchanged
(rows and original columns intact), and the column names after the render
are the loaded ones followed by `Value_norm`. -/
theorem C6_mutation_is_append_only (df : OECD.Frame) :
    (OECD.areaNormalizeStep df).dropLast = df ∧
    (OECD.areaNormalizeStep df).map Prod.fst = df.map Prod.fst ++ ["Value_norm"] := by
  constructor
  · rw [OECD.areaNormalizeStep]
    simp
  · rw [OECD.areaNormalizeStep]
    simp

namespace OECD

/-! ## CSV export filenames

Each section passes a `file_name` to its download button:

  - water.py 149:   `f"{selected_measure.lower().replace(' ', '_')}_water_data.csv"`
  - energy.py 258:  `f"energy_consumption_{selected_measure.lower().replace(' ', '_')}.csv"`
  - OECD_dashboard/water.py 202: `f"normalized_{use_type.lower().replace(' ', '_')}_2012_2021.csv"`
  - environment.py 147: `f"normalized_{nutrient.lower()}_surplus.csv"`
  - advanced_single_country.py 215: `f"{selected_country}_report.csv"`
  - summary.py 67:  `"sustainability_summary.csv"`
  - advanced_compare_countries.py 69: `"multi_country_kpi.csv"`
-/

/-- Python `str.lower()` (character-wise, as for the ASCII labels used). -/
def pyLower (s : String) : String :=
  String.mk (s.toList.map Char.toLower)

/-- Python `str.replace(' ', '_')`: the single-character pattern makes the
replacement character-wise. -/
def pyReplaceSpaceUnderscore (s : String) : String :=
  String.mk (s.toList.map (fun c => if c = ' ' then '_' else c))

/-- `param.lower().replace(' ', '_')`, the slug several sections build. -/
def paramSlug (s : String) : String :=
  pyReplaceSpaceUnderscore (pyLower s)

def water_csv_file_name (selectedMeasure : String) : String :=
  paramSlug selectedMeasure ++ "_water_data.csv"

def energy_csv_file_name (selectedMeasure : String) : String :=
  "energy_consumption_" ++ paramSlug selectedMeasure ++ ".csv"

def water_norm_csv_file_name (useType : String) : String :=
  "normalized_" ++ paramSlug useType ++ "_2012_2021.csv"

def environment_csv_file_name (nutrient : String) : String :=
  "normalized_" ++ pyLower nutrient ++ "_surplus.csv"

def single_country_csv_file_name (selectedCountry : String) : String :=
  selectedCountry ++ "_report.csv"

def summary_csv_file_name : String := "sustainability_summary.csv"

def compare_csv_file_name : String := "multi_country_kpi.csv"

theorem space_not_mem_paramSlug (s : String) : ' ' ∉ (paramSlug s).toList := by
  intro h
  have he : (paramSlug s).toList =
      (s.toList.map Char.toLower).map (fun c => if c = ' ' then '_' else c) := rfl
  rw [he] at h
  rcases List.mem_map.1 h with ⟨c, -, hc⟩
  by_cases h' : c = ' '
  · rw [if_pos h'] at hc
    exact absurd hc (by decide)
  · rw [if_neg h'] at hc
    exact h' hc

end OECD

/-- Counterexample to C7 as stated: the single-country report's export
filename embeds the selected country verbatim — for the parameter
"New Zealand" it is "New Zealand_report.csv", which still contains the
parameter's space and upper-case letters instead of the claimed
lower-cased, underscore-separated derivation. -/
theorem C7_counterexample :
    OECD.single_country_csv_file_name "New Zealand" = "New Zealand_report.csv" ∧
    OECD.single_country_csv_file_name "New Zealand" ≠
      OECD.paramSlug "New Zealand" ++ "_report.csv" ∧
    ' ' ∈ (OECD.single_country_csv_file_name "New Zealand").toList := by
  refine ⟨rfl, ?_, by decide⟩
  intro h
  have : ("New Zealand_report.csv" : String) = "new_zealand_report.csv" := h
  exact absurd this (by decide)

/-- C7 amended: the water, energy and normalized-water reports derive their
export filenames from the selected measure lower-cased with every space
replaced by an underscore (so those filenames never contain a space from
the parameter); the environment report only lower-cases its nutrient
parameter; the single-country report embeds the selected country verbatim;
the summary and comparison reports use fixed filenames. -/
theorem C7_filename_derivations :
    (∀ m, OECD.water_csv_file_name m =
        OECD.paramSlug m ++ "_water_data.csv" ∧
      ' ' ∉ (OECD.paramSlug m).toList) ∧
    (∀ m, OECD.energy_csv_file_name m =
        "energy_consumption_" ++ OECD.paramSlug m ++ ".csv") ∧
    (∀ u, OECD.water_norm_csv_file_name u =
        "normalized_" ++ OECD.paramSlug u ++ "_2012_2021.csv") ∧
    (∀ n, OECD.environment_csv_file_name n =
        "normalized_" ++ OECD.pyLower n ++ "_surplus.csv") ∧
    (∀ c, OECD.single_country_csv_file_name c = c ++ "_report.csv") ∧
    OECD.summary_csv_file_name = "sustainability_summary.csv" ∧
    OECD.compare_csv_file_name = "multi_country_kpi.csv" :=
  ⟨fun m => ⟨rfl, OECD.space_not_mem_paramSlug m⟩, fun _ => rfl, fun _ => rfl,
   fun _ => rfl, fun _ => rfl, rfl, rfl⟩

namespace Csv

/-! ## CSV export and re-parsing

Every section offers `df.to_csv(index=False)` behind a download button
(e.g. water.py 145-151, summary.py 62-69).  Modelled from the spec: the
export is "a standard comma-separated, header-included, UTF-8 encoding of
the currently filtered/aggregated table", and the round-trip property
re-parses that encoding; re-parsing itself never happens inside the
repository.  A table is a list of rows (the first row being the header),
a row a list of fields, a field its character sequence.  Fields containing
a comma are quoted, per the standard encoding. -/

/-- Encode one field: quote it when it contains a comma. -/
def writeField (f : List Char) : List Char :=
  if ',' ∈ f then '"' :: (f ++ ['"']) else f

/-- Interleave a separator character between parts. -/
def joinWith (sep : Char) : List (List Char) → List Char
  | [] => []
  | [f] => f
  | f :: g :: fs => f ++ sep :: joinWith sep (g :: fs)

/-- One encoded row: comma-separated encoded fields. -/
def writeRow (r : List (List Char)) : List Char :=
  joinWith ',' (r.map writeField)

/-- The encoded table: newline-separated encoded rows, header first. -/
def writeCsv (t : List (List (List Char))) : List Char :=
  joinWith '\n' (t.map writeRow)

/-- State machine for one line: `inQuote` toggles on `'"'`; an unquoted
comma ends the current field.  `cur` is the current field reversed, `acc`
the completed fields reversed. -/
def parseLineAux : Bool → List Char → List (List Char) → List Char → List (List Char)
  | _, cur, acc, [] => (cur.reverse :: acc).reverse
  | true, cur, acc, c :: rest =>
    if c = '"' then parseLineAux false cur acc rest
    else parseLineAux true (c :: cur) acc rest
  | false, cur, acc, c :: rest =>
    if c = '"' then parseLineAux true cur acc rest
    else if c = ',' then parseLineAux false [] (cur.reverse :: acc) rest
    else parseLineAux false (c :: cur) acc rest

/-- Decode one CSV line into its fields. -/
def parseLine (s : List Char) : List (List Char) :=
  parseLineAux false [] [] s

/-- Split on a separator character (no escaping at the line level). -/
def splitOnChar (sep : Char) : List Char → List (List Char)
  | [] => [[]]
  | c :: rest =>
    if c = sep then [] :: splitOnChar sep rest
    else
      match splitOnChar sep rest with
      | f :: fs => (c :: f) :: fs
      | [] => [[c]]

/-- Decode a CSV document: split into lines, decode each line. -/
def parseCsv (s : List Char) : List (List (List Char)) :=
  (splitOnChar '\n' s).map parseLine

theorem parseLineAux_quoted (f : List Char) (hq : '"' ∉ f) :
    ∀ (cur : List Char) (acc : List (List Char)) (rest : List Char),
      parseLineAux true cur acc (f ++ rest) =
        parseLineAux true (f.reverse ++ cur) acc rest := by
  induction f with
  | nil => intro cur acc rest; simp
  | cons c f' ih =>
    intro cur acc rest
    have hc : c ≠ '"' := fun h => hq (h ▸ List.mem_cons_self c f')
    have hf' : '"' ∉ f' := fun h => hq (List.mem_cons_of_mem c h)
    simp only [List.cons_append, parseLineAux, if_neg hc, List.append_eq]
    rw [ih hf' (c :: cur) acc rest]
    simp

theorem parseLineAux_bare (f : List Char) (hq : '"' ∉ f) (hc : ',' ∉ f) :
    ∀ (cur : List Char) (acc : List (List Char)) (rest : List Char),
      parseLineAux false cur acc (f ++ rest) =
        parseLineAux false (f.reverse ++ cur) acc rest := by
  induction f with
  | nil => intro cur acc rest; simp
  | cons c f' ih =>
    intro cur acc rest
    have h1 : c ≠ '"' := fun h => hq (h ▸ List.mem_cons_self c f')
    have h2 : c ≠ ',' := fun h => hc (h ▸ List.mem_cons_self c f')
    have hf1 : '"' ∉ f' := fun h => hq (List.mem_cons_of_mem c h)
    have hf2 : ',' ∉ f' := fun h => hc (List.mem_cons_of_mem c h)
    simp only [List.cons_append, parseLineAux, if_neg h1, if_neg h2, List.append_eq]
    rw [ih hf1 hf2 (c :: cur) acc rest]
    simp

theorem parseLineAux_writeField (f : List Char) (hq : '"' ∉ f) :
    ∀ (cur : List Char) (acc : List (List Char)) (rest : List Char),
      parseLineAux false cur acc (writeField f ++ rest) =
        parseLineAux false (f.reverse ++ cur) acc rest := by
  intro cur acc rest
  rw [writeField]
  by_cases hc : ',' ∈ f
  · rw [if_pos hc]
    have e1 : ('"' :: (f ++ ['"'])) ++ rest = '"' :: (f ++ ('"' :: rest)) := by simp
    rw [e1]
    have e2 : parseLineAux false cur acc ('"' :: (f ++ ('"' :: rest))) =
        parseLineAux true cur acc (f ++ ('"' :: rest)) := by
      simp [parseLineAux]
    rw [e2, parseLineAux_quoted f hq cur acc ('"' :: rest)]
    simp [parseLineAux]
  · rw [if_neg hc]
    exact parseLineAux_bare f hq hc cur acc rest

theorem parseLineAux_writeRow : ∀ (r : List (List Char)), r ≠ [] →
    (∀ f ∈ r, '"' ∉ f) →
    ∀ acc, parseLineAux false [] acc (writeRow r) = acc.reverse ++ r := by
  intro r
  induction r with
  | nil => intro h; exact absurd rfl h
  | cons f r' ih =>
    intro _ hq acc
    have hqf : '"' ∉ f := hq f (List.mem_cons_self f r')
    cases r' with
    | nil =>
      have e : writeRow [f] = writeField f ++ [] := by
        simp [writeRow, joinWith]
      rw [e, parseLineAux_writeField f hqf [] acc []]
      simp [parseLineAux]
    | cons g t =>
      have e : writeRow (f :: g :: t) = writeField f ++ (',' :: writeRow (g :: t)) := by
        simp [writeRow, joinWith]
      rw [e, parseLineAux_writeField f hqf [] acc (',' :: writeRow (g :: t))]
      have e2 : parseLineAux false (f.reverse ++ []) acc (',' :: writeRow (g :: t)) =
          parseLineAux false [] (f :: acc) (writeRow (g :: t)) := by
        simp [parseLineAux]
      rw [e2, ih (List.cons_ne_nil g t) (fun x hx => hq x (List.mem_cons_of_mem f hx)) (f :: acc)]
      simp

/-- Decoding one encoded row recovers its fields. -/
theorem parseLine_writeRow (r : List (List Char)) (hne : r ≠ [])
    (hq : ∀ f ∈ r, '"' ∉ f) : parseLine (writeRow r) = r := by
  rw [parseLine, parseLineAux_writeRow r hne hq []]
  simp

theorem mem_joinWith (sep : Char) :
    ∀ (parts : List (List Char)) (c : Char), c ∈ joinWith sep parts →
      c = sep ∨ ∃ p ∈ parts, c ∈ p := by
  intro parts
  induction parts with
  | nil => intro c hc; simp [joinWith] at hc
  | cons f r ih =>
    intro c hc
    cases r with
    | nil =>
      simp only [joinWith] at hc
      exact Or.inr ⟨f, List.mem_cons_self f [], hc⟩
    | cons g t =>
      simp only [joinWith, List.mem_append, List.mem_cons] at hc
      rcases hc with hf | rfl | hrest
      · exact Or.inr ⟨f, List.mem_cons_self f _, hf⟩
      · exact Or.inl rfl
      · rcases ih c hrest with h | ⟨p, hp, hcp⟩
        · exact Or.inl h
        · exact Or.inr ⟨p, List.mem_cons_of_mem f hp, hcp⟩

theorem mem_writeField {c : Char} {f : List Char} (h : c ∈ writeField f) :
    c ∈ f ∨ c = '"' := by
  rw [writeField] at h
  by_cases hc : ',' ∈ f
  · rw [if_pos hc] at h
    rcases List.mem_cons.1 h with rfl | h'
    · exact Or.inr rfl
    · rcases List.mem_append.1 h' with h'' | h''
      · exact Or.inl h''
      · exact Or.inr (List.mem_singleton.1 h'')
  · rw [if_neg hc] at h
    exact Or.inl h

theorem newline_not_mem_writeRow (r : List (List Char))
    (hnl : ∀ f ∈ r, '\n' ∉ f) : '\n' ∉ writeRow r := by
  intro h
  rcases mem_joinWith ',' (r.map writeField) '\n' h with h' | ⟨p, hp, hcp⟩
  · exact absurd h' (by decide)
  · rcases List.mem_map.1 hp with ⟨f, hf, rfl⟩
    rcases mem_writeField hcp with h'' | h''
    · exact hnl f hf h''
    · exact absurd h'' (by decide)

theorem splitOnChar_not_mem (sep : Char) :
    ∀ (p : List Char), sep ∉ p → splitOnChar sep p = [p] := by
  intro p
  induction p with
  | nil => intro; rfl
  | cons c p' ih =>
    intro h
    have hc : c ≠ sep := fun he => h (he ▸ List.mem_cons_self c p')
    have hp' : sep ∉ p' := fun he => h (List.mem_cons_of_mem c he)
    simp only [splitOnChar, if_neg hc, ih hp']

theorem splitOnChar_append (sep : Char) :
    ∀ (p s : List Char), sep ∉ p →
      splitOnChar sep (p ++ sep :: s) = p :: splitOnChar sep s := by
  intro p
  induction p with
  | nil =>
    intro s _
    simp [splitOnChar]
  | cons c p' ih =>
    intro s h
    have hc : c ≠ sep := fun he => h (he ▸ List.mem_cons_self c p')
    have hp' : sep ∉ p' := fun he => h (List.mem_cons_of_mem c he)
    simp only [List.cons_append, splitOnChar, if_neg hc, List.append_eq, ih s hp']

theorem splitOnChar_joinWith (sep : Char) :
    ∀ (parts : List (List Char)), parts ≠ [] → (∀ p ∈ parts, sep ∉ p) →
      splitOnChar sep (joinWith sep parts) = parts := by
  intro parts
  induction parts with
  | nil => intro h; exact absurd rfl h
  | cons f r ih =>
    intro _ hsep
    cases r with
    | nil =>
      rw [joinWith, splitOnChar_not_mem sep f (hsep f (List.mem_cons_self f []))]
    | cons g t =>
      rw [joinWith, splitOnChar_append sep f _ (hsep f (List.mem_cons_self f _)),
        ih (List.cons_ne_nil g t) (fun p hp => hsep p (List.mem_cons_of_mem f hp))]

end Csv

/-- C8: serializing a filtered/aggregated table to standard CSV (comma
separated, fields with commas quoted, header row included) and re-parsing
the encoding yields the table back, column for column and row for row —
for every table whose rows are nonempty and whose fields contain no quote
and no newline character. -/
theorem C8_csv_round_trip (t : List (List (List Char)))
    (hne : t ≠ []) (hrows : ∀ r ∈ t, r ≠ [])
    (hchars : ∀ r ∈ t, ∀ f ∈ r, '"' ∉ f ∧ '\n' ∉ f) :
    Csv.parseCsv (Csv.writeCsv t) = t := by
  rw [Csv.parseCsv, Csv.writeCsv,
    Csv.splitOnChar_joinWith '\n' (t.map Csv.writeRow)
      (by simpa using hne)
      (by
        intro p hp
        rcases List.mem_map.1 hp with ⟨r, hr, rfl⟩
        exact Csv.newline_not_mem_writeRow r (fun f hf => (hchars r hr f hf).2))]
  rw [List.map_map]
  conv_rhs => rw [← List.map_id t]
  refine List.map_congr_left ?_
  intro r hr
  exact Csv.parseLine_writeRow r (hrows r hr) (fun f hf => (hchars r hr f hf).1)

/-- Witness for C8: a two-column table — header plus two data rows, one
field containing a comma — that round-trips exactly. -/
theorem C8_csv_round_trip_witness :
    Csv.parseCsv (Csv.writeCsv
      [["Reference area".toList, "Value".toList],
       ["Korea, Rep.".toList, "5000".toList],
       ["France".toList, "305000".toList]]) =
      [["Reference area".toList, "Value".toList],
       ["Korea, Rep.".toList, "5000".toList],
       ["France".toList, "305000".toList]] :=
  C8_csv_round_trip _ (by decide) (by decide) (by decide)

namespace OECD

/-! ## KPI summary tables

`summary.py` lines 29-47 and `advanced_compare_countries.py` lines 32-52
build one row per selected (country, year): the nutrient indicators use
`.mean()` over the matching rows, the others `.sum()`, and the result is
`sort_values(by=["Year", "Country"])`. -/

structure KpiRow where
  country : String
  year : ℤ
  nitrogen : Option ℚ
  phosphorus : Option ℚ
  ghg : ℚ
  energyUse : ℚ
  waterUse : ℚ
  arableLand : ℚ
deriving DecidableEq

/-- The inner mask `(df["Reference area"] == country) & (df["Year"] == year)`. -/
def matchesCY (c : String) (y : ℤ) (r : Row) : Bool :=
  decide (r.referenceArea = c ∧ r.year = y)

/-- The pre-filter `df[isin(countries) & isin(years)]`. -/
def isinCY (cs : List String) (ys : List ℤ) (t : List Row) : List Row :=
  t.filter (fun r => decide (r.referenceArea ∈ cs ∧ r.year ∈ ys))

/-- One summary row for a selected (country, year):
mean-based nutrient surpluses, sum-based emission/energy/water/land. -/
def mkSummaryRow (agriF energyF : List Row) (c : String) (y : ℤ) : KpiRow where
  country := c
  year := y
  nitrogen := meanV ((agriF.filter (matchesCY c y)).filter
    (fun r => decide (r.nutrients = some "Nitrogen")))
  phosphorus := meanV ((agriF.filter (matchesCY c y)).filter
    (fun r => decide (r.nutrients = some "Phosphorus")))
  ghg := sumV ((agriF.filter (matchesCY c y)).filter
    (fun r => decide (r.measure = "Total greenhouse gas emissions")))
  energyUse := sumV ((energyF.filter (matchesCY c y)).filter
    (fun r => decide (r.measure = "Direct on-farm energy consumption")))
  waterUse := sumV ((agriF.filter (matchesCY c y)).filter
    (fun r => decide (r.measure = "Agriculture freshwater abstraction")))
  arableLand := sumV ((agriF.filter (matchesCY c y)).filter
    (fun r => decide (r.measure = "Arable land")))

/-- `sort_values(by=["Year", "Country"])`: Year first, then Country. -/
def kpiLe (a b : KpiRow) : Prop :=
  a.year < b.year ∨ (a.year = b.year ∧ a.country ≤ b.country)

/-- The corresponding strict order on distinct sort keys. -/
def kpiLt (a b : KpiRow) : Prop :=
  a.year < b.year ∨ (a.year = b.year ∧ a.country < b.country)

instance : DecidableRel kpiLe := fun a b =>
  inferInstanceAs (Decidable (a.year < b.year ∨ (a.year = b.year ∧ a.country ≤ b.country)))

instance : DecidableRel kpiLt := fun a b =>
  inferInstanceAs (Decidable (a.year < b.year ∨ (a.year = b.year ∧ a.country < b.country)))

instance : IsTotal KpiRow kpiLe :=
  ⟨fun a b => by
    rcases lt_trichotomy a.year b.year with h | h | h
    · exact Or.inl (Or.inl h)
    · rcases le_total a.country b.country with hc | hc
      · exact Or.inl (Or.inr ⟨h, hc⟩)
      · exact Or.inr (Or.inr ⟨h.symm, hc⟩)
    · exact Or.inr (Or.inl h)⟩

instance : IsTrans KpiRow kpiLe :=
  ⟨fun a b c hab hbc => by
    rcases hab with h1 | ⟨h1, h1'⟩
    · rcases hbc with h2 | ⟨h2, h2'⟩
      · exact Or.inl (lt_trans h1 h2)
      · exact Or.inl (h2 ▸ h1)
    · rcases hbc with h2 | ⟨h2, h2'⟩
      · exact Or.inl (h1 ▸ h2)
      · exact Or.inr ⟨h1.trans h2, le_trans h1' h2'⟩⟩

instance : IsAntisymm KpiRow kpiLt :=
  ⟨fun a b hab hba => by
    exfalso
    rcases hab with h1 | ⟨h1, h1'⟩
    · rcases hba with h2 | ⟨h2, h2'⟩
      · exact absurd (lt_trans h1 h2) (lt_irrefl _)
      · exact absurd h1 (h2 ▸ lt_irrefl _)
    · rcases hba with h2 | ⟨h2, h2'⟩
      · exact absurd h2 (h1 ▸ lt_irrefl _)
      · exact absurd (lt_trans h1' h2') (lt_irrefl _)⟩

/-- The sort key of a summary row. -/
def kpiKey (r : KpiRow) : ℤ × String := (r.year, r.country)

/-- The unsorted summary rows: both nested `for` loops. -/
def kpiRows (agri energy : List Row) (cs : List String) (ys : List ℤ) : List KpiRow :=
  cs.flatMap fun c => ys.map fun y =>
    mkSummaryRow (isinCY cs ys agri) (isinCY cs ys energy) c y

/-- The displayed summary table: rows sorted by Year then Country. -/
def kpiTable (agri energy : List Row) (cs : List String) (ys : List ℤ) : List KpiRow :=
  List.insertionSort kpiLe (kpiRows agri energy cs ys)

/-- An observation recording a true zero for the GHG measure. -/
def ghgZeroRow (c : String) (y : ℤ) : Row where
  referenceArea := c
  year := y
  measure := "Total greenhouse gas emissions"
  unitOfMeasure := some "Tonnes"
  unitMultiplier := none
  value := some 0
  nutrients := none

end OECD

namespace OECD

theorem filter_matchesCY_eq_nil (t : List Row) (c : String) (y : ℤ)
    (h : ∀ r ∈ t, ¬(r.referenceArea = c ∧ r.year = y)) :
    t.filter (matchesCY c y) = [] := by
  rw [List.filter_eq_nil_iff]
  intro r hr
  simp only [matchesCY, decide_eq_true_eq]
  exact h r hr

theorem mkSummaryRow_no_match (agriF energyF : List Row) (c : String) (y : ℤ)
    (ha : agriF.filter (matchesCY c y) = [])
    (he : energyF.filter (matchesCY c y) = []) :
    mkSummaryRow agriF energyF c y =
      ⟨c, y, none, none, 0, 0, 0, 0⟩ := by
  simp [mkSummaryRow, ha, he, meanV, sumV]

theorem mkSummaryRow_ghgZero (agriF energyF : List Row) (c : String) (y : ℤ) :
    mkSummaryRow (agriF ++ [ghgZeroRow c y]) energyF c y =
      mkSummaryRow agriF energyF c y := by
  have hz : matchesCY c y (ghgZeroRow c y) = true := by
    simp [matchesCY, ghgZeroRow]
  have hsplit : (agriF ++ [ghgZeroRow c y]).filter (matchesCY c y) =
      agriF.filter (matchesCY c y) ++ [ghgZeroRow c y] := by
    rw [List.filter_append]
    simp [hz]
  simp only [mkSummaryRow, hsplit, List.filter_append,
    show List.filter (fun r => decide (r.nutrients = some "Nitrogen"))
      [ghgZeroRow c y] = [] from rfl,
    show List.filter (fun r => decide (r.nutrients = some "Phosphorus"))
      [ghgZeroRow c y] = [] from rfl,
    show List.filter
      (fun r => decide (r.measure = "Total greenhouse gas emissions"))
      [ghgZeroRow c y] = [ghgZeroRow c y] from rfl,
    show List.filter
      (fun r => decide (r.measure = "Agriculture freshwater abstraction"))
      [ghgZeroRow c y] = [] from rfl,
    show List.filter (fun r => decide (r.measure = "Arable land"))
      [ghgZeroRow c y] = [] from rfl,
    List.append_nil]
  simp [sumV, ghgZeroRow]

theorem kpiRows_map_key (agri energy : List Row) (cs : List String) (ys : List ℤ) :
    (kpiRows agri energy cs ys).map kpiKey =
      cs.flatMap fun c => ys.map fun y => (y, c) := by
  simp only [kpiRows, List.map_flatMap, List.map_map]
  rfl

theorem pairs_nodup (cs : List String) (ys : List ℤ)
    (hcs : cs.Nodup) (hys : ys.Nodup) :
    (cs.flatMap fun c => ys.map fun y => ((y, c) : ℤ × String)).Nodup := by
  induction cs with
  | nil => simp
  | cons c cs' ih =>
    rw [List.nodup_cons] at hcs
    rw [List.flatMap_cons, List.nodup_append]
    refine ⟨hys.map (fun a b h => congrArg Prod.fst h), ih hcs.2, ?_⟩
    intro x hx1 hx2
    rcases List.mem_map.1 hx1 with ⟨y1, -, rfl⟩
    rcases List.mem_flatMap.1 hx2 with ⟨c', hc', hx2'⟩
    rcases List.mem_map.1 hx2' with ⟨y2, -, he⟩
    have hcc : c' = c := congrArg Prod.snd he
    rw [hcc] at hc'
    exact hcs.1 hc'

theorem pairwise_kpiLt_of_sorted (l : List KpiRow)
    (hs : List.Sorted kpiLe l) (hn : (l.map kpiKey).Nodup) :
    l.Pairwise kpiLt := by
  have hne : l.Pairwise (fun a b => kpiKey a ≠ kpiKey b) := List.pairwise_map.mp hn
  refine (List.Pairwise.and hs hne).imp ?_
  intro a b hab
  obtain ⟨hle, hkey⟩ := hab
  rcases hle with h1 | ⟨h1, h1'⟩
  · exact Or.inl h1
  · refine Or.inr ⟨h1, lt_of_le_of_ne h1' ?_⟩
    intro hcc
    exact hkey (by rw [kpiKey, kpiKey, h1, hcc])

end OECD

/-- C10: in the KPI/summary reports, a selected (country, year) with no
matching source rows yields a row whose mean-based indicators (Nitrogen,
Phosphorus surplus) are missing and whose sum-based indicators (GHG,
energy, water, arable land) are exactly 0; adding a true-zero GHG
observation leaves the row unchanged, so an absent observation is
indistinguishable from a true zero in the sum-based indicators; and the
resulting rows are always sorted by Year then Country, independent of the
order in which countries and years were selected. -/
theorem C10_kpi_summary_semantics (agri energy : List OECD.Row)
    (cs cs2 : List String) (ys ys2 : List ℤ) (c : String) (y : ℤ) :
    ((∀ r ∈ agri, ¬(r.referenceArea = c ∧ r.year = y)) →
      (∀ r ∈ energy, ¬(r.referenceArea = c ∧ r.year = y)) →
      OECD.mkSummaryRow (OECD.isinCY cs ys agri) (OECD.isinCY cs ys energy) c y =
        ⟨c, y, none, none, 0, 0, 0, 0⟩) ∧
    (∀ agriF energyF : List OECD.Row,
      OECD.mkSummaryRow (agriF ++ [OECD.ghgZeroRow c y]) energyF c y =
        OECD.mkSummaryRow agriF energyF c y) ∧
    List.Sorted OECD.kpiLe (OECD.kpiTable agri energy cs ys) ∧
    (cs.Nodup → ys.Nodup → cs2.Perm cs → ys2.Perm ys →
      OECD.kpiTable agri energy cs2 ys2 = OECD.kpiTable agri energy cs ys) := by
  refine ⟨?_, fun aF eF => OECD.mkSummaryRow_ghgZero aF eF c y,
    List.sorted_insertionSort OECD.kpiLe _, ?_⟩
  · intro hag hen
    refine OECD.mkSummaryRow_no_match _ _ c y ?_ ?_
    · exact OECD.filter_matchesCY_eq_nil _ c y
        (fun r hr => hag r (List.mem_of_mem_filter hr))
    · exact OECD.filter_matchesCY_eq_nil _ c y
        (fun r hr => hen r (List.mem_of_mem_filter hr))
  · intro hcs hys hpc hpy
    have hfa : OECD.isinCY cs2 ys2 agri = OECD.isinCY cs ys agri :=
      List.filter_congr fun r _ =>
        decide_eq_decide.mpr (by rw [hpc.mem_iff, hpy.mem_iff])
    have hfe : OECD.isinCY cs2 ys2 energy = OECD.isinCY cs ys energy :=
      List.filter_congr fun r _ =>
        decide_eq_decide.mpr (by rw [hpc.mem_iff, hpy.mem_iff])
    have hrows : (OECD.kpiRows agri energy cs2 ys2).Perm
        (OECD.kpiRows agri energy cs ys) := by
      rw [OECD.kpiRows, OECD.kpiRows, hfa, hfe]
      refine List.Perm.trans (List.Perm.flatMap_left cs2 ?_) (hpc.flatMap_right _)
      intro a _
      exact hpy.map _
    have hkey1 : ((OECD.kpiRows agri energy cs ys).map OECD.kpiKey).Nodup := by
      rw [OECD.kpiRows_map_key]
      exact OECD.pairs_nodup cs ys hcs hys
    have hkey2 : ((OECD.kpiRows agri energy cs2 ys2).map OECD.kpiKey).Nodup := by
      rw [OECD.kpiRows_map_key]
      exact OECD.pairs_nodup cs2 ys2 (hpc.nodup_iff.mpr hcs) (hpy.nodup_iff.mpr hys)
    have hp1 : (OECD.kpiTable agri energy cs ys).Pairwise OECD.kpiLt := by
      refine OECD.pairwise_kpiLt_of_sorted _
        (List.sorted_insertionSort OECD.kpiLe _) ?_
      exact ((List.perm_insertionSort OECD.kpiLe
        (OECD.kpiRows agri energy cs ys)).map OECD.kpiKey).nodup_iff.mpr hkey1
    have hp2 : (OECD.kpiTable agri energy cs2 ys2).Pairwise OECD.kpiLt := by
      refine OECD.pairwise_kpiLt_of_sorted _
        (List.sorted_insertionSort OECD.kpiLe _) ?_
      exact ((List.perm_insertionSort OECD.kpiLe
        (OECD.kpiRows agri energy cs2 ys2)).map OECD.kpiKey).nodup_iff.mpr hkey2
    have hst : (OECD.kpiTable agri energy cs2 ys2).Perm
        (OECD.kpiTable agri energy cs ys) :=
      ((List.perm_insertionSort OECD.kpiLe _).trans hrows).trans
        (List.perm_insertionSort OECD.kpiLe _).symm
    exact List.eq_of_perm_of_sorted hst hp2 hp1

/-- Witness for C10: an empty snapshot, a (country, year) with no matching
rows, and two selection orders of the same two countries. -/
theorem C10_kpi_summary_semantics_witness :
    OECD.mkSummaryRow (OECD.isinCY ["b", "a"] [2020] [])
      (OECD.isinCY ["b", "a"] [2020] []) "France" 2020 =
      ⟨"France", 2020, none, none, 0, 0, 0, 0⟩ ∧
    OECD.kpiTable [] [] ["a", "b"] [2020] =
      OECD.kpiTable [] [] ["b", "a"] [2020] := by
  obtain ⟨h1, -, -, h4⟩ :=
    C10_kpi_summary_semantics [] [] ["b", "a"] ["a", "b"] [2020] [2020] "France" 2020
  exact ⟨h1 (by simp) (by simp), h4 (by decide) (by decide) (by decide) (by decide)⟩
